import Mathlib

/-!
Shallow embedding of the brewery medallion pipeline
(`src/bronze/ingest_api.py`, `src/silver/transform.py`,
`src/gold/aggregate.py`, `dags/brewery_pipeline.py`).

Raw records are modelled as association lists of column name to value
(`Row`), mirroring `pd.DataFrame(list_of_dicts)`: the frame's columns are
the union of the keys, a key absent from a dict reads as null (`NaN`), and
`df.empty` holds when the frame has zero rows or zero columns.  Silver rows
fed to the aggregator are modelled with the fixed schema `SRec`, and gold
rows read by the quality gate with `QRow`.  Fallible Python functions
(raising `ValueError` / `KeyError` / `FileNotFoundError`) become
`Except String`; the unbounded pagination loop of `fetch_all_breweries`
takes explicit fuel.
-/

namespace BreweryPipeline

/-- A cell value of a pandas column: null (`NaN`/`None`), a string, or a
number (`pd.to_numeric` output, modelled over `Rat`). -/
inductive Val where
  | null : Val
  | str : String → Val
  | num : Rat → Val
deriving DecidableEq, Repr

/-- A raw record: an association list from column names to values, as in a
JSON object / Python dict fed to `pd.DataFrame`. -/
abbrev Row := List (String × Val)

/-- Reading a column of a row: the first binding of the key, and null when
the key is absent (a dict missing a key yields `NaN` in the frame). -/
def getV (r : Row) (c : String) : Val :=
  match r.lookup c with
  | some v => v
  | none => Val.null

/-- Python `s.lower()` (ASCII case folding), written over the character
list of the string. -/
def pyLower (s : String) : String := String.mk (s.data.map Char.toLower)

/-- Python `s.strip()`: drop leading and trailing whitespace, written over
the character list of the string. -/
def pyStrip (s : String) : String :=
  String.mk (((s.data.dropWhile Char.isWhitespace).reverse.dropWhile
    Char.isWhitespace).reverse)

/-- The column-name normalisation `c.lower().strip()` applied by
`clean_and_transform` to `df.columns`. -/
def pyNorm (s : String) : String := pyStrip (pyLower s)

/-- Normalise the keys of one record. -/
def normKeys (r : Row) : Row := r.map (fun kv => (pyNorm kv.1, kv.2))

/-- The (normalised, deduplicated) column set of `pd.DataFrame(data)`: the
union of the keys occurring in the records. -/
def columnsOf (data : List Row) : List String :=
  ((data.map normKeys).map (fun r => r.map Prod.fst)).flatten.dedup

/-- The optional string columns filled with `"unknown"` by
`clean_and_transform` (its `str_cols` list). -/
def str_cols : List String :=
  ["city", "country", "state_province", "postal_code", "phone",
   "website_url", "address_1", "address_2", "address_3"]

/-- Parse a decimal literal the way `pd.to_numeric` parses a string:
optional surrounding whitespace, optional sign, digits with at most one
decimal point; anything else is unparseable (`none`). -/
def parseDecimal (s : String) : Option Rat :=
  let cs := (pyStrip s).data
  let signed : Int × List Char :=
    match cs with
    | '-' :: rest => (-1, rest)
    | '+' :: rest => (1, rest)
    | _ => (1, cs)
  let intPart := signed.2.takeWhile Char.isDigit
  let rest := signed.2.drop intPart.length
  let intVal : Nat := intPart.foldl (fun n c => n * 10 + (c.toNat - 48)) 0
  match rest with
  | [] => if intPart.isEmpty then none else some (signed.1 * (intVal : Rat))
  | '.' :: frac =>
    if frac.all Char.isDigit ∧ ¬(intPart.isEmpty ∧ frac.isEmpty) then
      let fracVal : Nat := frac.foldl (fun n c => n * 10 + (c.toNat - 48)) 0
      some (signed.1 * ((intVal : Rat) + (fracVal : Rat) / (10 : Rat) ^ frac.length))
    else none
  | _ => none

/-- `pd.to_numeric(v, errors="coerce")` on one cell: null stays null,
numbers stay, strings are parsed and become null when unparseable. -/
def toNumeric (v : Val) : Val :=
  match v with
  | Val.null => Val.null
  | Val.num q => Val.num q
  | Val.str s =>
    match parseDecimal s with
    | some q => Val.num q
    | none => Val.null

/-- The per-column cell transformation applied after the dropna step:
`fillna("unknown")` on the optional string columns and numeric coercion on
latitude/longitude; all other columns pass through. -/
def transformVal (c : String) (v : Val) : Val :=
  if c ∈ str_cols then
    match v with
    | Val.null => Val.str "unknown"
    | w => w
  else if c = "latitude" ∨ c = "longitude" then toNumeric v
  else v

/-- Materialise a record over the frame's column list: every column is
present, transformed by `transformVal` (a DataFrame row has every column). -/
def materialize (cols : List String) (r : Row) : Row :=
  cols.map (fun c => (c, transformVal c (getV r c)))

/-- The dropna-subset predicate: keep a row iff `brewery_type` and `state`
are both non-null. -/
def keepRow (r : Row) : Bool :=
  decide (getV r "brewery_type" ≠ Val.null ∧ getV r "state" ≠ Val.null)

/-- Embedding of `clean_and_transform` (src/silver/transform.py).
Mirrors the source order: `df.empty` early return (true when the frame has
zero rows or zero columns), column-name normalisation, the
`dropna(subset=["brewery_type", "state"])` step — which raises `KeyError`
when either subset column is absent — then `fillna("unknown")` on the
optional string columns and `pd.to_numeric(errors="coerce")` on
latitude/longitude. -/
def clean_and_transform (data : List Row) : Except String (List Row) :=
  let cols := columnsOf data
  if data.isEmpty || cols.isEmpty then
    Except.ok (data.map (fun _ => ([] : Row)))
  else if "brewery_type" ∉ cols ∨ "state" ∉ cols then
    Except.error "KeyError: dropna subset columns brewery_type, state not in frame"
  else
    Except.ok (((data.map normKeys).filter keepRow).map (materialize cols))

/-- A silver-layer row as read back by the aggregator: the columns the
gold aggregation touches (`id` for the count, the three group keys), each
nullable. -/
structure SRec where
  id : Option String
  brewery_type : Option String
  country : Option String
  state : Option String
deriving DecidableEq, Repr

/-- The group key of a silver row for
`groupby(["brewery_type", "country", "state"])`.  Pandas `groupby` (with
its default `dropna=True`) drops a row from every group when any key is
null, hence the `Option`. -/
def keyOf (r : SRec) : Option (String × String × String) :=
  match r.brewery_type, r.country, r.state with
  | some b, some c, some s => some (b, c, s)
  | _, _, _ => none

/-- The `sort_values(["country", "state", "brewery_type"])` order on group
keys `(brewery_type, country, state)`: ascending lexicographic comparison
of country, then state, then brewery_type. -/
def keyLe (a b : String × String × String) : Prop :=
  a.2.1 < b.2.1 ∨ (a.2.1 = b.2.1 ∧ (a.2.2 < b.2.2 ∨ (a.2.2 = b.2.2 ∧ a.1 ≤ b.1)))

instance : DecidableRel keyLe := fun a b => by
  unfold keyLe
  infer_instance

/-- A gold-layer row: the output schema of `aggregate_breweries` is exactly
the four columns brewery_type, country, state, brewery_count. -/
structure GoldRow where
  brewery_type : String
  country : String
  state : String
  brewery_count : Nat
deriving DecidableEq, Repr

/-- The group key carried by a gold row. -/
def rowKey (g : GoldRow) : String × String × String :=
  (g.brewery_type, g.country, g.state)

/-- Embedding of `aggregate_breweries` (src/gold/aggregate.py).  Raises
`ValueError` on an empty frame; otherwise groups by
`(brewery_type, country, state)` with `observed=True` (only combinations
present in the data, rows with a null key dropped by `groupby`), computes
`brewery_count=("id", "count")` — pandas `count` counts the NON-NULL `id`
cells of the group — and sorts ascending by (country, state, brewery_type). -/
def aggregate_breweries (rs : List SRec) : Except String (List GoldRow) :=
  if rs.isEmpty then
    Except.error "Input DataFrame is empty. Cannot aggregate."
  else
    let keys := (rs.filterMap keyOf).dedup
    let sorted := keys.insertionSort keyLe
    Except.ok (sorted.map (fun k =>
      { brewery_type := k.1, country := k.2.1, state := k.2.2,
        brewery_count :=
          (rs.filter (fun r => decide (keyOf r = some k ∧ r.id.isSome))).length }))

/-- The bronze store: a list of (filename, contents) snapshots, most
recent first. -/
abbrev BronzeFS (α : Type) := List (String × List α)

/-- Embedding of `save_to_bronze` (src/bronze/ingest_api.py): writes the
records to a timestamped JSON file unconditionally — the function performs
no emptiness validation of its own — and returns the file path. -/
def save_to_bronze {α : Type} (data : List α) (ts : String) (fs : BronzeFS α) :
    Except String (BronzeFS α × String) :=
  let filepath := "breweries_raw_" ++ ts ++ ".json"
  Except.ok ((filepath, data) :: fs, filepath)

/-- One step of the `while True` pagination loop of `fetch_all_breweries`:
`pages` is the API (page index to page contents), `fuel` bounds the number
of remaining iterations (the Python loop is unbounded; `none` means the
fuel ran out before an empty page was seen).  On success returns the
accumulated records and the total number of `fetch_breweries` calls made
(the loop calls pages `1, 2, ...` once each and stops at the first empty
page, which is itself fetched). -/
def fetchLoop {α : Type} (pages : Nat → List α) :
    Nat → Nat → List α → Option (List α × Nat)
  | 0, _, _ => none
  | fuel + 1, page, acc =>
    let data := pages page
    if data.isEmpty then some (acc, page)
    else fetchLoop pages fuel (page + 1) (acc ++ data)

/-- Embedding of `fetch_all_breweries` (src/bronze/ingest_api.py): start at
page 1 with an empty accumulator. -/
def fetch_all_breweries {α : Type} (pages : Nat → List α) (fuel : Nat) :
    Option (List α × Nat) :=
  fetchLoop pages fuel 1 []

/-- Embedding of `ingest_breweries` (src/bronze/ingest_api.py): fetch all
pages, raise `ValueError` when nothing was fetched, otherwise save to the
bronze store.  `none` propagates fuel exhaustion of the pagination loop. -/
def ingest_breweries {α : Type} (pages : Nat → List α) (fuel : Nat)
    (ts : String) (fs : BronzeFS α) :
    Option (Except String (BronzeFS α × String)) :=
  match fetch_all_breweries pages fuel with
  | none => none
  | some (data, _) =>
    if data.isEmpty then
      some (Except.error "No data fetched from API. Aborting ingestion.")
    else
      some (save_to_bronze data ts fs)

/-- A gold-artifact row as read back by the quality gate: the parquet file
written by `save_to_gold` carries the three key columns (nullable on read)
and the count. -/
structure QRow where
  brewery_type : Option String
  country : Option String
  state : Option String
  brewery_count : Nat
deriving DecidableEq, Repr

/-- Embedding of `run_quality_check` (dags/brewery_pipeline.py).  The
artifact is `none` when the gold file does not exist, `some rows`
otherwise.  The check raises `FileNotFoundError` on a missing file,
`ValueError` on zero rows, on a zero total of brewery_count, and on a null
in any of the three key columns, in that order; otherwise it succeeds.  It
is a pure validator: it takes no store and writes nothing. -/
def run_quality_check (gold : Option (List QRow)) : Except String Unit :=
  match gold with
  | none => Except.error "Data quality check FAILED: gold file not found"
  | some df =>
    if df.isEmpty then
      Except.error "Data quality check FAILED: gold layer is empty."
    else if (df.map QRow.brewery_count).sum = 0 then
      Except.error "Data quality check FAILED: brewery_count sums to zero."
    else if df.any (fun r =>
        r.brewery_type.isNone || r.country.isNone || r.state.isNone) then
      Except.error "Data quality check FAILED: null values in key columns"
    else
      Except.ok ()

/-! ### Theorems -/

/-- C8: `clean_and_transform` applied to the empty collection returns the
empty collection and raises no error (in particular no missing-column
error): the `df.empty` early return fires before any column is inspected. -/
theorem clean_and_transform_empty : clean_and_transform [] = Except.ok [] := rfl

/-- C9: `aggregate_breweries` applied to an empty collection fails with a
`ValueError` whose message mentions emptiness (the literal word "empty"
occurs in it), and hence produces no output rows. -/
theorem aggregate_breweries_empty :
    aggregate_breweries [] =
      Except.error "Input DataFrame is empty. Cannot aggregate." ∧
    "Input DataFrame is empty. Cannot aggregate." =
      "Input DataFrame is " ++ "empty" ++ ". Cannot aggregate." :=
  ⟨rfl, rfl⟩

/-- C5 counterexample: `save_to_bronze` itself performs no emptiness
validation — given an empty records sequence it succeeds and writes an
empty snapshot instead of failing with a validation error. -/
theorem save_to_bronze_empty_writes :
    save_to_bronze ([] : List Nat) "20240101_000000" [] =
      Except.ok ([("breweries_raw_20240101_000000.json", [])],
        "breweries_raw_20240101_000000.json") := rfl

/-- C5 amended: the emptiness validation lives in the caller
`ingest_breweries`: whenever the pagination loop fetched no records at
all, `ingest_breweries` fails with the `ValueError` "No data fetched from
API. Aborting ingestion." and never reaches `save_to_bronze`, so no
snapshot is written. -/
theorem ingest_breweries_empty_error {α : Type} (pages : Nat → List α)
    (fuel n : Nat) (ts : String) (fs : BronzeFS α)
    (h : fetch_all_breweries pages fuel = some ([], n)) :
    ingest_breweries pages fuel ts fs =
      some (Except.error "No data fetched from API. Aborting ingestion.") := by
  unfold ingest_breweries
  rw [h]
  rfl

/-- C5 amended, witness: an API whose first page is already empty makes
`ingest_breweries` fail with the validation error. -/
theorem ingest_breweries_empty_error_witness :
    ingest_breweries (fun _ => ([] : List Nat)) 1 "20240101_000000" [] =
      some (Except.error "No data fetched from API. Aborting ingestion.") :=
  ingest_breweries_empty_error _ 1 1 _ _ rfl

/-- The pagination loop starting at page `p`, when pages `p, ..., p+j-1`
are non-empty and page `p+j` is the first empty one, returns the
concatenation of those `j` pages appended to the accumulator and makes
`j + 1` further calls (pages `p` through `p + j`), provided the fuel
covers the `j + 1` iterations. -/
theorem fetchLoop_spec {α : Type} (pages : Nat → List α) :
    ∀ (j p fuel : Nat) (acc : List α),
      (∀ i, i < j → pages (p + i) ≠ []) →
      pages (p + j) = [] →
      j < fuel →
      fetchLoop pages fuel p acc =
        some (acc ++ ((List.range' p j).map pages).flatten, p + j)
  | 0, p, fuel, acc, _, hempty, hfuel => by
    obtain ⟨f, rfl⟩ : ∃ f, fuel = f + 1 :=
      ⟨fuel - 1, by omega⟩
    have hp : pages p = [] := by simpa using hempty
    simp [fetchLoop, hp]
  | j + 1, p, fuel, acc, hne, hempty, hfuel => by
    obtain ⟨f, rfl⟩ : ∃ f, fuel = f + 1 :=
      ⟨fuel - 1, by omega⟩
    have hp : pages p ≠ [] := by
      have := hne 0 (Nat.succ_pos j)
      simpa using this
    have hrec := fetchLoop_spec pages j (p + 1) f (acc ++ pages p)
      (fun i hi => by
        have := hne (i + 1) (by omega)
        simpa [Nat.add_assoc, Nat.add_comm 1 i] using this)
      (by
        have : p + 1 + j = p + (j + 1) := by omega
        rw [this]; exact hempty)
      (by omega)
    simp only [fetchLoop, List.isEmpty_eq_false.mpr hp, if_false, Bool.false_eq_true]
    rw [hrec, List.range'_succ]
    simp [List.append_assoc]
    omega

/-- C2: for an API whose first empty page is page `m` (pages `1 .. m-1`
non-empty, page `m` empty), `fetch_all_breweries` returns the
concatenation, in order, of the `m - 1` pages before the first empty page,
and calls the page fetcher exactly `(m - 1) + 1` times — one more than the
number of non-empty pages — with page indices starting at 1 and
incrementing by 1. -/
theorem fetch_all_breweries_spec {α : Type} (pages : Nat → List α)
    (m fuel : Nat) (hm : 1 ≤ m) (hempty : pages m = [])
    (hne : ∀ k, 1 ≤ k → k < m → pages k ≠ [])
    (hfuel : m ≤ fuel) :
    fetch_all_breweries pages fuel =
      some (((List.range' 1 (m - 1)).map pages).flatten, (m - 1) + 1) := by
  have h := fetchLoop_spec pages (m - 1) 1 fuel []
    (fun i hi => hne (1 + i) (by omega) (by omega))
    (by
      have : 1 + (m - 1) = m := by omega
      rw [this]; exact hempty)
    (by omega)
  unfold fetch_all_breweries
  rw [h]
  simp only [List.nil_append]
  congr 2
  omega

/-- C2, witness: two non-empty pages followed by an empty page 3 yield the
concatenation of pages 1 and 2 and three fetch calls. -/
theorem fetch_all_breweries_spec_witness :
    fetch_all_breweries
      (fun n => if n = 1 then [10] else if n = 2 then [20, 30] else ([] : List Nat))
      3 = some ([10, 20, 30], 3) := by
  have h := fetch_all_breweries_spec
    (fun n => if n = 1 then [10] else if n = 2 then [20, 30] else ([] : List Nat))
    3 3 (by decide) (by decide)
    (fun k h1 h2 => by interval_cases k <;> decide) (by decide)
  simpa using h

/-- C6: the quality gate fails (raises) iff the gold artifact file does
not exist, or it has zero rows, or the brewery_count total is zero, or
some row has a null in one of the key columns brewery_type, country,
state; on a well-formed artifact it succeeds, and being a pure function of
the artifact it has no write side effect. -/
theorem run_quality_check_fails_iff (gold : Option (List QRow)) :
    (∃ m, run_quality_check gold = Except.error m) ↔
      (gold = none ∨ ∃ df, gold = some df ∧
        (df = [] ∨ (df.map QRow.brewery_count).sum = 0 ∨
          ∃ r ∈ df, r.brewery_type = none ∨ r.country = none ∨ r.state = none)) := by
  cases gold with
  | none =>
    constructor
    · intro _; exact Or.inl rfl
    · intro _; exact ⟨_, rfl⟩
  | some df =>
    constructor
    · rintro ⟨m, hm⟩
      refine Or.inr ⟨df, rfl, ?_⟩
      simp only [run_quality_check] at hm
      by_cases h1 : df.isEmpty
      · exact Or.inl (List.isEmpty_iff.mp h1)
      · rw [if_neg (by simpa using h1)] at hm
        by_cases h2 : (df.map QRow.brewery_count).sum = 0
        · exact Or.inr (Or.inl h2)
        · rw [if_neg (by simpa using h2)] at hm
          by_cases h3 : df.any (fun r =>
              r.brewery_type.isNone || r.country.isNone || r.state.isNone) = true
          · refine Or.inr (Or.inr ?_)
            obtain ⟨r, hr, hp⟩ := List.any_eq_true.mp h3
            refine ⟨r, hr, ?_⟩
            simpa [Option.isNone_iff_eq_none, or_assoc] using hp
          · rw [if_neg (by simpa using h3)] at hm
            exact absurd hm (by simp)
    · intro h
      simp only [run_quality_check]
      by_cases h1 : df.isEmpty
      · rw [if_pos (by simpa using h1)]
        exact ⟨_, rfl⟩
      · rw [if_neg (by simpa using h1)]
        by_cases h2 : (df.map QRow.brewery_count).sum = 0
        · rw [if_pos (by simpa using h2)]
          exact ⟨_, rfl⟩
        · rw [if_neg (by simpa using h2)]
          have h3 : df.any (fun r =>
              r.brewery_type.isNone || r.country.isNone || r.state.isNone) = true := by
            rcases h with h | ⟨df', hdf', h'⟩
            · exact absurd h (by simp)
            · obtain rfl : df' = df := by injection hdf'.symm
              rcases h' with h' | h' | ⟨r, hr, hp⟩
              · exact absurd (List.isEmpty_iff.mpr h') h1
              · exact absurd h' h2
              · exact List.any_eq_true.mpr
                  ⟨r, hr, by simpa [Option.isNone_iff_eq_none, or_assoc] using hp⟩
          rw [if_pos (by simpa using h3)]
          exact ⟨_, rfl⟩

/-- A column that reads non-null in a row is one of the row's keys. -/
theorem getV_ne_null_mem {r : Row} {c : String} (h : getV r c ≠ Val.null) :
    c ∈ r.map Prod.fst := by
  induction r with
  | nil => exact absurd rfl h
  | cons kv rest ih =>
    by_cases hceq : c = kv.1
    · subst hceq; exact List.mem_cons_self _ _
    · refine List.mem_cons_of_mem _ (ih ?_)
      have hbeq : (c == kv.1) = false := beq_eq_false_iff_ne.mpr hceq
      simpa [getV, List.lookup, hbeq] using h

/-- A key of a record of the frame is one of the frame's columns. -/
theorem mem_columnsOf {data : List Row} {r : Row} {c : String}
    (hr : r ∈ data) (hc : getV (normKeys r) c ≠ Val.null) :
    c ∈ columnsOf data := by
  unfold columnsOf
  rw [List.mem_dedup, List.mem_flatten]
  exact ⟨(normKeys r).map Prod.fst,
    List.mem_map.mpr ⟨normKeys r, List.mem_map.mpr ⟨r, hr, rfl⟩, rfl⟩,
    getV_ne_null_mem hc⟩

/-- Reading a listed column of a materialised row gives the transformed
cell of the underlying record. -/
theorem getV_materialize {cols : List String} {c : String} (r : Row)
    (hc : c ∈ cols) :
    getV (materialize cols r) c = transformVal c (getV r c) := by
  induction cols with
  | nil => cases hc
  | cons c' cs ih =>
    by_cases hceq : c = c'
    · subst hceq
      simp [materialize, getV, List.lookup]
    · have hbeq : (c == c') = false := beq_eq_false_iff_ne.mpr hceq
      have hmem : c ∈ cs := by
        rcases List.mem_cons.mp hc with h | h
        · exact absurd h hceq
        · exact h
      simpa [materialize, getV, List.lookup, hbeq] using ih hmem

/-- brewery_type is neither an optional string column nor a coordinate, so
the post-dropna transformations leave it unchanged. -/
theorem transformVal_brewery_type (v : Val) : transformVal "brewery_type" v = v := by
  unfold transformVal
  rw [if_neg (by decide), if_neg (by decide)]

/-- state is neither an optional string column nor a coordinate, so the
post-dropna transformations leave it unchanged. -/
theorem transformVal_state (v : Val) : transformVal "state" v = v := by
  unfold transformVal
  rw [if_neg (by decide), if_neg (by decide)]

/-- An unparseable latitude or longitude string is coerced to null. -/
theorem transformVal_coord_unparseable {c s : String}
    (hc : c = "latitude" ∨ c = "longitude") (hs : parseDecimal s = none) :
    transformVal c (Val.str s) = Val.null := by
  have hnotstr : c ∉ str_cols := by
    rcases hc with rfl | rfl <;> decide
  unfold transformVal
  rw [if_neg hnotstr, if_pos hc]
  simp [toNumeric, hs]

/-- C10 counterexample: a non-empty collection made of records with no
fields at all (so in particular no brewery_type field) makes the frame
column-less, hence `df.empty` is true and `clean_and_transform` returns via
the early branch — it does not raise a missing-column error. -/
theorem clean_and_transform_no_fields_no_error :
    clean_and_transform [([] : Row)] = Except.ok [[]] ∧
    ([([] : Row)] : List Row) ≠ [] ∧
    "brewery_type" ∉ columnsOf [([] : Row)] :=
  ⟨rfl, by decide, by decide⟩

/-- C10 amended: for every non-empty collection of records in which some
record carries at least one field, if no record carries a (normalised)
brewery_type field or no record carries a state field, `clean_and_transform`
raises a missing-column `KeyError` rather than returning a result. -/
theorem clean_and_transform_missing_column (data : List Row)
    (hne : data ≠ []) (hcols : columnsOf data ≠ [])
    (hmiss : "brewery_type" ∉ columnsOf data ∨ "state" ∉ columnsOf data) :
    clean_and_transform data =
      Except.error "KeyError: dropna subset columns brewery_type, state not in frame" := by
  simp only [clean_and_transform]
  rw [if_neg (by simp [List.isEmpty_iff, hne, hcols]), if_pos hmiss]

/-- C10 amended, witness: a record carrying only a name field makes the
cleaner raise the missing-column error. -/
theorem clean_and_transform_missing_column_witness :
    clean_and_transform [([("name", Val.str "x")] : Row)] =
      Except.error "KeyError: dropna subset columns brewery_type, state not in frame" :=
  clean_and_transform_missing_column _ (by decide) (by decide) (Or.inl (by decide))

/-- C3 counterexample: on the collection of two field-less records every
input record has null brewery_type, yet the early `df.empty` branch
returns a two-row result whose rows still have null brewery_type — so the
output neither keeps exactly the non-null-keyed records nor contains only
records with non-null brewery_type and state. -/
theorem clean_and_transform_degenerate_rows :
    clean_and_transform [([] : Row), ([] : Row)] = Except.ok [[], []] ∧
    getV ([] : Row) "brewery_type" = Val.null :=
  ⟨rfl, rfl⟩

/-- C3 amended: whenever `clean_and_transform` succeeds on a collection
that is empty or has at least one field among its records, the output rows
are exactly the materialisations (over the frame columns, with the fill
and coercion transformations) of the normalised input records whose
brewery_type and state are both non-null, in order, and every output
record has non-null brewery_type and non-null state. -/
theorem clean_and_transform_filter (data : List Row) (out : List Row)
    (hok : clean_and_transform data = Except.ok out)
    (hcols : data = [] ∨ columnsOf data ≠ []) :
    out = ((data.map normKeys).filter keepRow).map (materialize (columnsOf data)) ∧
    ∀ r ∈ out, getV r "brewery_type" ≠ Val.null ∧ getV r "state" ≠ Val.null := by
  rcases hcols with rfl | hcols
  · have : out = [] := by simpa [clean_and_transform] using hok.symm
    subst this
    exact ⟨rfl, by intro r hr; cases hr⟩
  · have hne : data ≠ [] := by
      intro h; subst h; exact hcols rfl
    by_cases hbt : "brewery_type" ∈ columnsOf data
    · by_cases hst : "state" ∈ columnsOf data
      · simp only [clean_and_transform] at hok
        rw [if_neg (by simp [List.isEmpty_iff, hne, hcols]),
          if_neg (not_or.mpr ⟨not_not_intro hbt, not_not_intro hst⟩)] at hok
        have hout : out =
            ((data.map normKeys).filter keepRow).map (materialize (columnsOf data)) := by
          simpa using hok.symm
        refine ⟨hout, ?_⟩
        intro r hr
        rw [hout] at hr
        obtain ⟨rn, hrn, rfl⟩ := List.mem_map.mp hr
        have hkeep := (List.mem_filter.mp hrn).2
        have hkeep' := of_decide_eq_true hkeep
        constructor
        · rw [getV_materialize _ hbt, transformVal_brewery_type]
          exact hkeep'.1
        · rw [getV_materialize _ hst, transformVal_state]
          exact hkeep'.2
      · exfalso
        simp only [clean_and_transform] at hok
        rw [if_neg (by simp [List.isEmpty_iff, hne, hcols]),
          if_pos (Or.inr hst)] at hok
        exact Except.noConfusion hok
    · exfalso
      simp only [clean_and_transform] at hok
      rw [if_neg (by simp [List.isEmpty_iff, hne, hcols]),
        if_pos (Or.inl hbt)] at hok
      exact Except.noConfusion hok

/-- C3 amended, witness: of two records the one with null brewery_type is
dropped and the survivor keeps its non-null brewery_type and state. -/
theorem clean_and_transform_filter_witness :
    ([[("brewery_type", Val.str "micro"), ("state", Val.str "CA")]] : List Row) =
      (([[("brewery_type", Val.str "micro"), ("state", Val.str "CA")],
         [("brewery_type", Val.null), ("state", Val.str "TX")]].map normKeys).filter
          keepRow).map
        (materialize (columnsOf
          [[("brewery_type", Val.str "micro"), ("state", Val.str "CA")],
           [("brewery_type", Val.null), ("state", Val.str "TX")]])) ∧
    ∀ r ∈ ([[("brewery_type", Val.str "micro"), ("state", Val.str "CA")]] : List Row),
      getV r "brewery_type" ≠ Val.null ∧ getV r "state" ≠ Val.null :=
  clean_and_transform_filter
    [[("brewery_type", Val.str "micro"), ("state", Val.str "CA")],
     [("brewery_type", Val.null), ("state", Val.str "TX")]]
    [[("brewery_type", Val.str "micro"), ("state", Val.str "CA")]]
    (by rfl) (Or.inr (by decide))

/-- C7: a record one of whose coordinate fields — latitude or longitude —
is an unparseable string is not dropped: provided its brewery_type and
state are non-null it survives cleaning, the cleaner raises no error, and
that coordinate field is coerced to null in the output. -/
theorem clean_and_transform_coerce_unparseable (data : List Row) (r : Row)
    (c s : String) (hr : r ∈ data)
    (hc : c = "latitude" ∨ c = "longitude")
    (hbt : getV (normKeys r) "brewery_type" ≠ Val.null)
    (hst : getV (normKeys r) "state" ≠ Val.null)
    (hcoord : getV (normKeys r) c = Val.str s)
    (hs : parseDecimal s = none) :
    ∃ out, clean_and_transform data = Except.ok out ∧
      materialize (columnsOf data) (normKeys r) ∈ out ∧
      getV (materialize (columnsOf data) (normKeys r)) c = Val.null := by
  have hbtc : "brewery_type" ∈ columnsOf data := mem_columnsOf hr hbt
  have hstc : "state" ∈ columnsOf data := mem_columnsOf hr hst
  have hcc : c ∈ columnsOf data :=
    mem_columnsOf hr (by rw [hcoord]; exact fun h => Val.noConfusion h)
  have hne : data ≠ [] := by
    intro h; subst h; cases hr
  have hcolsne : columnsOf data ≠ [] := by
    intro h; rw [h] at hbtc; cases hbtc
  refine ⟨((data.map normKeys).filter keepRow).map (materialize (columnsOf data)),
    ?_, ?_, ?_⟩
  · simp only [clean_and_transform]
    rw [if_neg (by simp [List.isEmpty_iff, hne, hcolsne]),
      if_neg (not_or.mpr ⟨not_not_intro hbtc, not_not_intro hstc⟩)]
  · exact List.mem_map_of_mem _
      (List.mem_filter.mpr
        ⟨List.mem_map_of_mem _ hr, decide_eq_true ⟨hbt, hst⟩⟩)
  · rw [getV_materialize _ hcc, hcoord, transformVal_coord_unparseable hc hs]

/-- C7, witness: a record with longitude "not a number" survives cleaning
with longitude null. -/
theorem clean_and_transform_coerce_unparseable_witness :
    ∃ out,
      clean_and_transform
        [[("brewery_type", Val.str "micro"), ("state", Val.str "CA"),
          ("longitude", Val.str "not a number")]] = Except.ok out ∧
      materialize
        (columnsOf
          [[("brewery_type", Val.str "micro"), ("state", Val.str "CA"),
            ("longitude", Val.str "not a number")]])
        (normKeys
          [("brewery_type", Val.str "micro"), ("state", Val.str "CA"),
           ("longitude", Val.str "not a number")]) ∈ out ∧
      getV
        (materialize
          (columnsOf
            [[("brewery_type", Val.str "micro"), ("state", Val.str "CA"),
              ("longitude", Val.str "not a number")]])
          (normKeys
            [("brewery_type", Val.str "micro"), ("state", Val.str "CA"),
             ("longitude", Val.str "not a number")])) "longitude" = Val.null :=
  clean_and_transform_coerce_unparseable _ _ "longitude" "not a number"
    (List.mem_cons_self _ _) (Or.inr rfl) (by decide) (by decide) (by decide)
    (by decide)

instance : IsTotal (String × String × String) keyLe := by
  constructor
  intro a b
  unfold keyLe
  rcases lt_trichotomy a.2.1 b.2.1 with h | h | h
  · exact Or.inl (Or.inl h)
  · rcases lt_trichotomy a.2.2 b.2.2 with h' | h' | h'
    · exact Or.inl (Or.inr ⟨h, Or.inl h'⟩)
    · rcases le_total a.1 b.1 with h'' | h''
      · exact Or.inl (Or.inr ⟨h, Or.inr ⟨h', h''⟩⟩)
      · exact Or.inr (Or.inr ⟨h.symm, Or.inr ⟨h'.symm, h''⟩⟩)
    · exact Or.inr (Or.inr ⟨h.symm, Or.inl h'⟩)
  · exact Or.inr (Or.inl h)

instance : IsTrans (String × String × String) keyLe := by
  constructor
  intro a b c hab hbc
  unfold keyLe at hab hbc ⊢
  rcases hab with h1 | ⟨h1, h2⟩
  · rcases hbc with h3 | ⟨h3, _⟩
    · exact Or.inl (h1.trans h3)
    · exact Or.inl (lt_of_lt_of_eq h1 h3)
  · rcases hbc with h3 | ⟨h3, h4⟩
    · exact Or.inl (lt_of_eq_of_lt h1 h3)
    · refine Or.inr ⟨h1.trans h3, ?_⟩
      rcases h2 with h2 | ⟨h2, h5⟩
      · rcases h4 with h4 | ⟨h4, _⟩
        · exact Or.inl (h2.trans h4)
        · exact Or.inl (lt_of_lt_of_eq h2 h4)
      · rcases h4 with h4 | ⟨h4, h6⟩
        · exact Or.inl (lt_of_eq_of_lt h2 h4)
        · exact Or.inr ⟨h2.trans h4, h5.trans h6⟩

/-- Pointwise sum of two summands distributes over a list sum. -/
theorem sum_map_add {κ : Type} (l : List κ) (f g : κ → Nat) :
    (l.map (fun k => f k + g k)).sum = (l.map f).sum + (l.map g).sum := by
  induction l with
  | nil => rfl
  | cons k l ih => simp [ih]; omega

/-- The indicator of a key absent from a list sums to zero over it. -/
theorem sum_map_ite_not_mem {κ : Type} [DecidableEq κ] (l : List κ) (k₀ : κ)
    (hk : k₀ ∉ l) :
    (l.map (fun k => if k₀ = k then (1 : Nat) else 0)).sum = 0 := by
  induction l with
  | nil => rfl
  | cons k l ih =>
    have hne : k₀ ≠ k := fun h => hk (h ▸ List.mem_cons_self _ _)
    have hnmem : k₀ ∉ l := fun h => hk (List.mem_cons_of_mem _ h)
    simp [hne, ih hnmem]

/-- The indicator of a key occurring in a duplicate-free list sums to one
over it. -/
theorem sum_map_ite_mem {κ : Type} [DecidableEq κ] (l : List κ) (k₀ : κ)
    (hnd : l.Nodup) (hk : k₀ ∈ l) :
    (l.map (fun k => if k₀ = k then (1 : Nat) else 0)).sum = 1 := by
  induction l with
  | nil => cases hk
  | cons k l ih =>
    rcases List.nodup_cons.mp hnd with ⟨hkl, hnd'⟩
    by_cases h : k₀ = k
    · subst h
      simp [sum_map_ite_not_mem l k₀ hkl]
    · have hk' : k₀ ∈ l := by
        rcases List.mem_cons.mp hk with h' | h'
        · exact absurd h' h
        · exact h'
      simp [h, ih hnd' hk']

/-- Group counts over a complete, duplicate-free key list partition the
records: summing the per-key counts of records with that key and a
non-null id gives the total count of records with a non-null id. -/
theorem sum_countP_partition (keys : List (String × String × String))
    (hnd : keys.Nodup) (rs : List SRec)
    (hcover : ∀ r ∈ rs, r.id.isSome = true → ∃ k ∈ keys, keyOf r = some k) :
    (keys.map (fun k =>
      rs.countP (fun r => decide (keyOf r = some k ∧ r.id.isSome)))).sum =
      rs.countP (fun r => r.id.isSome) := by
  induction rs with
  | nil => simp
  | cons r rs ih =>
    have hcover' : ∀ r' ∈ rs, r'.id.isSome = true → ∃ k ∈ keys, keyOf r' = some k :=
      fun r' hr' => hcover r' (List.mem_cons_of_mem _ hr')
    simp only [List.countP_cons]
    rw [show (keys.map (fun k =>
        rs.countP (fun r' => decide (keyOf r' = some k ∧ r'.id.isSome)) +
          if decide (keyOf r = some k ∧ r.id.isSome) = true then 1 else 0)) =
      (keys.map (fun k =>
        (fun k => rs.countP (fun r' => decide (keyOf r' = some k ∧ r'.id.isSome))) k +
          (fun k => if decide (keyOf r = some k ∧ r.id.isSome) = true then 1 else 0) k))
      from rfl]
    rw [sum_map_add, ih hcover']
    congr 1
    by_cases hid : r.id.isSome = true
    · obtain ⟨k₀, hk₀, hkey⟩ := hcover r (List.mem_cons_self _ _) hid
      have hterm : ∀ k ∈ keys,
          (if decide (keyOf r = some k ∧ r.id.isSome) = true then (1 : Nat) else 0) =
            if k₀ = k then 1 else 0 := by
        intro k _
        rw [hkey]
        by_cases hk : k₀ = k
        · subst hk; simp [hid]
        · have : ¬(some k₀ = some k ∧ r.id.isSome = true) :=
            fun hcon => hk (Option.some_injective _ hcon.1)
          simp only [decide_eq_true_eq]
          rw [if_neg this, if_neg hk]
      rw [List.map_congr_left hterm, sum_map_ite_mem keys k₀ hnd hk₀]
      simp [hid]
    · have hterm : ∀ k ∈ keys,
          (if decide (keyOf r = some k ∧ r.id.isSome) = true then (1 : Nat) else 0) =
            0 := by
        intro k _
        have : ¬(keyOf r = some k ∧ r.id.isSome = true) := fun hcon => hid hcon.2
        simp only [decide_eq_true_eq]
        rw [if_neg this]
      rw [List.map_congr_left hterm]
      simp [hid]

/-- C1 counterexample: a single cleaned record with a null id (cleaning
never touches id) aggregates to one group with brewery_count 0, because
`brewery_count=("id", "count")` counts only non-null id cells — so the sum
of brewery_count over the output is 0 while the input row count is 1. -/
theorem aggregate_breweries_null_id_loses_row :
    aggregate_breweries
        [SRec.mk none (some "micro") (some "United States") (some "California")] =
      Except.ok [GoldRow.mk "micro" "United States" "California" 0] ∧
    (([GoldRow.mk "micro" "United States" "California" 0]).map
        GoldRow.brewery_count).sum ≠
      ([SRec.mk none (some "micro") (some "United States") (some "California")]).length :=
  ⟨rfl, by decide⟩

/-- C1 amended: for every non-empty collection of cleaned records (all
three group keys non-null), aggregation succeeds and the sum of
brewery_count over the returned rows equals the number of input records
whose id is non-null. -/
theorem aggregate_breweries_conservation (rs : List SRec) (hne : rs ≠ [])
    (hcl : ∀ r ∈ rs, (keyOf r).isSome) :
    ∃ out, aggregate_breweries rs = Except.ok out ∧
      (out.map GoldRow.brewery_count).sum =
        (rs.filter (fun r => r.id.isSome)).length := by
  refine ⟨((rs.filterMap keyOf).dedup.insertionSort keyLe).map (fun k =>
    GoldRow.mk k.1 k.2.1 k.2.2
      (rs.filter (fun r => decide (keyOf r = some k ∧ r.id.isSome))).length),
    ?_, ?_⟩
  · simp only [aggregate_breweries]
    rw [if_neg (by simp [List.isEmpty_iff, hne])]
  · rw [List.map_map]
    have hnd : ((rs.filterMap keyOf).dedup.insertionSort keyLe).Nodup :=
      (List.perm_insertionSort keyLe _).symm.nodup (List.nodup_dedup _)
    have hcover : ∀ r ∈ rs, r.id.isSome = true →
        ∃ k ∈ (rs.filterMap keyOf).dedup.insertionSort keyLe, keyOf r = some k := by
      intro r hr _
      obtain ⟨k, hk⟩ := Option.isSome_iff_exists.mp (hcl r hr)
      exact ⟨k, (List.mem_insertionSort keyLe).mpr (List.mem_dedup.mpr
        (List.mem_filterMap.mpr ⟨r, hr, hk⟩)), hk⟩
    have hsum := sum_countP_partition _ hnd rs hcover
    simp only [List.countP_eq_length_filter] at hsum
    exact hsum

/-- C1 amended, witness: two records sharing a group, one with a null id,
aggregate to total count 1, the number of non-null-id inputs. -/
theorem aggregate_breweries_conservation_witness :
    ∃ out,
      aggregate_breweries
          [SRec.mk (some "1") (some "micro") (some "US") (some "CA"),
           SRec.mk none (some "micro") (some "US") (some "CA")] =
        Except.ok out ∧
      (out.map GoldRow.brewery_count).sum =
        (([SRec.mk (some "1") (some "micro") (some "US") (some "CA"),
           SRec.mk none (some "micro") (some "US") (some "CA")]).filter
          (fun r => r.id.isSome)).length :=
  aggregate_breweries_conservation _ (by decide) (by decide)

/-- C4 counterexample: the aggregation does not count "records with that
combination": a single record carrying the combination (nano, United
States, Texas) but a null id yields the row for that combination with
brewery_count 0, though one input record carries the combination. -/
theorem aggregate_breweries_count_not_rows :
    aggregate_breweries
        [SRec.mk none (some "nano") (some "United States") (some "Texas")] =
      Except.ok [GoldRow.mk "nano" "United States" "Texas" 0] ∧
    (GoldRow.mk "nano" "United States" "Texas" 0).brewery_count ≠
      (([SRec.mk none (some "nano") (some "United States") (some "Texas")]).filter
        (fun r => decide (keyOf r = some ("nano", "United States", "Texas")))).length :=
  ⟨rfl, by decide⟩

/-- C4 amended: for every non-empty collection of cleaned records (all
three group keys non-null) the aggregation returns one row for exactly the
distinct (brewery_type, country, state) combinations present in the input
(no row for an absent combination, no duplicate rows), each row — of the
schema {brewery_type, country, state, brewery_count} — carrying as
brewery_count the number of input records with that combination AND a
non-null id, and the rows are sorted ascending by (country, state,
brewery_type). -/
theorem aggregate_breweries_groups (rs : List SRec) (hne : rs ≠ [])
    (hcl : ∀ r ∈ rs, (keyOf r).isSome) :
    ∃ out, aggregate_breweries rs = Except.ok out ∧
      (∀ k, k ∈ out.map rowKey ↔ ∃ r ∈ rs, keyOf r = some k) ∧
      (out.map rowKey).Nodup ∧
      (∀ g ∈ out, g.brewery_count =
        (rs.filter (fun r =>
          decide (keyOf r = some (rowKey g) ∧ r.id.isSome))).length) ∧
      List.Sorted keyLe (out.map rowKey) := by
  have hcomp : (rowKey ∘ fun k : String × String × String =>
      GoldRow.mk k.1 k.2.1 k.2.2
        (rs.filter (fun r => decide (keyOf r = some k ∧ r.id.isSome))).length) =
      id := by
    funext k'
    obtain ⟨a, b, c⟩ := k'
    rfl
  refine ⟨((rs.filterMap keyOf).dedup.insertionSort keyLe).map (fun k =>
    GoldRow.mk k.1 k.2.1 k.2.2
      (rs.filter (fun r => decide (keyOf r = some k ∧ r.id.isSome))).length),
    ?_, ?_, ?_, ?_, ?_⟩
  · simp only [aggregate_breweries]
    rw [if_neg (by simp [List.isEmpty_iff, hne])]
  · intro k
    rw [List.map_map, hcomp, List.map_id, List.mem_insertionSort,
      List.mem_dedup, List.mem_filterMap]
  · rw [List.map_map, hcomp, List.map_id]
    exact (List.perm_insertionSort keyLe _).symm.nodup (List.nodup_dedup _)
  · intro g hg
    obtain ⟨k, _, rfl⟩ := List.mem_map.mp hg
    obtain ⟨a, b, c⟩ := k
    rfl
  · rw [List.map_map, hcomp, List.map_id]
    exact List.sorted_insertionSort keyLe _

/-- C4 amended, witness: the spec's own example — two micro/US/CA records
and one nano/US/TX record, all with ids — aggregates to one row per
combination with counts 2 and 1. -/
theorem aggregate_breweries_groups_witness :
    ∃ out,
      aggregate_breweries
          [SRec.mk (some "1") (some "micro") (some "United States") (some "California"),
           SRec.mk (some "2") (some "micro") (some "United States") (some "California"),
           SRec.mk (some "3") (some "nano") (some "United States") (some "Texas")] =
        Except.ok out ∧
      (∀ k, k ∈ out.map rowKey ↔ ∃ r ∈
        ([SRec.mk (some "1") (some "micro") (some "United States") (some "California"),
          SRec.mk (some "2") (some "micro") (some "United States") (some "California"),
          SRec.mk (some "3") (some "nano") (some "United States") (some "Texas")]),
        keyOf r = some k) ∧
      (out.map rowKey).Nodup ∧
      (∀ g ∈ out, g.brewery_count =
        (([SRec.mk (some "1") (some "micro") (some "United States") (some "California"),
           SRec.mk (some "2") (some "micro") (some "United States") (some "California"),
           SRec.mk (some "3") (some "nano") (some "United States") (some "Texas")]).filter
          (fun r => decide (keyOf r = some (rowKey g) ∧ r.id.isSome))).length) ∧
      List.Sorted keyLe (out.map rowKey) :=
  aggregate_breweries_groups _ (by decide) (by decide)

end BreweryPipeline
